import Mathlib

/-!
Verification of the core logic of src/agent.py: a Slack bot that relays
mentions to an Ollama model and can summarize a conversation thread.

Modelling conventions, used throughout:
. Python strings are modelled as List Char.
. A Python dict key that the code reads with square brackets is an Option
  field: a missing key makes the access fail with KeyError.
. Each external call (Slack API, model chain) is an oracle passed in as a
  function or as an outcome value; exceptions the code can catch are
  explicit constructors of the oracle's result type.
. Python truthiness of an optional string (None and the empty string are
  falsy) is the function truthyStr.
-/

namespace SlackOllama

/-- Python startswith on character lists: the first list is a prefix of the
second. -/
def startsWith : List Char → List Char → Bool
  | [], _ => true
  | _ :: _, [] => false
  | a :: ps, b :: qs => (a == b) && startsWith ps qs

/-- The Python substring test `pat in s` on character lists. -/
def containsSub : List Char → List Char → Bool
  | pat, [] => startsWith pat []
  | pat, c :: rest => startsWith pat (c :: rest) || containsSub pat rest

/-- The character class of the regex in clean_message_text: uppercase
A-Z or digit 0-9. -/
def isIdChar (c : Char) : Bool := ('A' ≤ c && c ≤ 'Z') || ('0' ≤ c && c ≤ '9')

/-- One attempted regex match of the pattern matching a literal "<@", one
or more id characters, then a literal ">", at the head of the list; on
success returns the remainder after the match.  The id run is greedy, and
since ">" is not an id character no backtracking can succeed with a
shorter run, so this is exactly the Python regex engine's behaviour. -/
def matchMention (l : List Char) : Option (List Char) :=
  match l with
  | c1 :: c2 :: rest =>
    if c1 = '<' && c2 = '@' then
      if (rest.takeWhile isIdChar).isEmpty then none
      else
        match rest.dropWhile isIdChar with
        | d :: rest2 => if d = '>' then some rest2 else none
        | [] => none
  else none
  | _ => none

/-- Left-to-right scan of Python re.sub with empty replacement: at each
position try the pattern; on a match skip past it, otherwise keep the
character and advance by one.  Fuel-indexed to stay structural; the fuel
is set to the list length by subMentions, which always suffices. -/
def subMentionsF : Nat → List Char → List Char
  | 0, l => l
  | _ + 1, [] => []
  | fuel + 1, c :: rest =>
    match matchMention (c :: rest) with
    | some rest2 => subMentionsF fuel rest2
    | none => c :: subMentionsF fuel rest

/-- re.sub of the mention pattern with the empty string, from
clean_message_text (line 149 of src/agent.py). -/
def subMentions (l : List Char) : List Char := subMentionsF l.length l

/-- The whitespace characters of Python str.split and str.strip (the ASCII
ones: space, tab, newline, carriage return, vertical tab, form feed). -/
def isPySpace (c : Char) : Bool :=
  c = ' ' || c = '\t' || c = '\n' || c = '\r' || c = Char.ofNat 11 || c = Char.ofNat 12

/-- Python str.strip: drop whitespace from both ends. -/
def pyStrip (l : List Char) : List Char :=
  ((l.dropWhile isPySpace).reverse.dropWhile isPySpace).reverse

/-- Worker for pySplit: acc holds the current word, reversed. -/
def pySplitAux : List Char → List Char → List (List Char)
  | [], acc => if acc.isEmpty then [] else [acc.reverse]
  | c :: rest, acc =>
    if isPySpace c then
      if acc.isEmpty then pySplitAux rest []
      else acc.reverse :: pySplitAux rest []
    else pySplitAux rest (c :: acc)

/-- Python str.split with no argument: the maximal runs of non-whitespace
characters, in order. -/
def pySplit (l : List Char) : List (List Char) := pySplitAux l []

/-- Python sep.join for a one-character separator. -/
def joinSep (sep : Char) : List (List Char) → List Char
  | [] => []
  | [w] => w
  | w :: w2 :: ws => w ++ sep :: joinSep sep (w2 :: ws)

/-- clean_message_text from src/agent.py lines 145-152: remove every
mention token matching the regex, then collapse whitespace by stripping,
splitting and joining with single spaces. -/
def clean_message_text (l : List Char) : List Char :=
  joinSep ' ' (pySplit (pyStrip (subMentions l)))

/-- Python str.lower applied characterwise, as in line 165. -/
def toLowerL (l : List Char) : List Char := l.map Char.toLower

/-- No two adjacent whitespace characters anywhere in the list. -/
def adjacentOk : List Char → Bool
  | [] => true
  | [_] => true
  | a :: b :: l => !(isPySpace a && isPySpace b) && adjacentOk (b :: l)

/-- Whether the list's first character is whitespace (false when empty). -/
def headIsSpace : List Char → Bool
  | [] => false
  | c :: _ => isPySpace c

/-- Whether the list's last character is whitespace (false when empty). -/
def lastIsSpace (l : List Char) : Bool :=
  match l.getLast? with
  | none => false
  | some c => isPySpace c

/-- The output shape the spec requires of the normalizer: no leading,
trailing or doubled whitespace. -/
def wsClean (l : List Char) : Bool :=
  !headIsSpace l && !lastIsSpace l && adjacentOk l

/-- Inputs built from ordinary characters (neither "<" nor "@") and
complete mention tokens whose ids are uppercase-alphanumeric, the id
alphabet of the regex in clean_message_text. -/
inductive MentionFree : List Char → Prop where
  | nil : MentionFree []
  | chr (c : Char) (t : List Char) (h1 : c ≠ '<') (h2 : c ≠ '@') (ht : MentionFree t) :
      MentionFree (c :: t)
  | tok (id t : List Char) (h1 : id ≠ []) (h2 : ∀ c ∈ id, isIdChar c = true)
      (ht : MentionFree t) : MentionFree ('<' :: '@' :: (id ++ '>' :: t))

/-- The enum derived per request by the classifier; see spec section 3. -/
inductive Intent where
  | Chat
  | SummarizeThread
deriving DecidableEq

/-- The trigger phrases of line 169 of src/agent.py, in source order. -/
def trigger_phrases : List (List Char) :=
  ["summarize thread".toList, "sumarize thread".toList, "thread summary".toList]

/-- The classifier of line 169, generalized over the phrase list so that
order-independence can be stated: any(cmd in text for cmd in phrases). -/
def classifyWith (phrases : List (List Char)) (t : List Char) : Intent :=
  if phrases.any (fun p => containsSub p t) then Intent.SummarizeThread else Intent.Chat

/-- Intent classification as performed inline at line 169 of src/agent.py
on the cleaned, lowercased text. -/
def classify (t : List Char) : Intent := classifyWith trigger_phrases t

/-- The privacy modifier of line 173: is_private is true when the cleaned
text contains "private" or "me only". -/
def isPrivateRequest (t : List Char) : Bool :=
  containsSub "private".toList t || containsSub "me only".toList t

/-- Python str.replace scanning left to right: on a match of pat skip it
and emit repl, otherwise keep one character.  Fuel-indexed like
subMentionsF; replaceAll sets the fuel to the list length, which always
suffices because pat is nonempty at every call site (it contains "<@"). -/
def replaceAllF (pat repl : List Char) : Nat → List Char → List Char
  | 0, l => l
  | _ + 1, [] => []
  | fuel + 1, c :: rest =>
    if pat ≠ [] && startsWith pat (c :: rest) then
      repl ++ replaceAllF pat repl fuel ((c :: rest).drop pat.length)
    else c :: replaceAllF pat repl fuel rest

/-- Python text.replace(pat, repl) (all occurrences). -/
def replaceAll (pat repl l : List Char) : List Char :=
  replaceAllF pat repl l.length l

/-- Python errors distinguished by the handler: KeyError from a missing
dict key, and every other exception. -/
inductive PyErr where
  | keyError
  | otherError
deriving DecidableEq

/-- A dict access with square brackets: raises KeyError when the key is
missing. -/
def requiredKey : Option (List Char) → Except PyErr (List Char)
  | some v => Except.ok v
  | none => Except.error PyErr.keyError

/-- The outcome of client.users_info(user): a response dict with ok true
and the user's real_name, a response with ok false, a raised SlackApiError
whose str() is the given message, or any other raised exception. -/
inductive LookupOutcome where
  | ok (real_name : List Char)
  | notOk
  | apiError (message : List Char)
  | raised

/-- One element of a rich_text_section's elements list (a dict; each key
the code reads is an Option field). -/
structure UserMentionEl where
  type : Option (List Char)
  user_id : Option (List Char)

/-- One element of a rich_text block's elements list. -/
structure RTElement where
  type : Option (List Char)
  elements : Option (List UserMentionEl)

/-- One entry of msg's blocks list. -/
structure MsgBlock where
  type : Option (List Char)
  elements : Option (List RTElement)

/-- One message dict of the thread fetch; user and text are read with
square brackets (KeyError when missing), blocks with .get (defaults to an
empty list). -/
structure Message where
  user : Option (List Char)
  text : Option (List Char)
  blocks : Option (List MsgBlock)

/-- The outcome of client.conversations_replies: a response with ok true
and a messages list, a response with ok false, or a raised exception. -/
inductive FetchOutcome where
  | ok (messages : List Message)
  | notOk
  | raised

/-- The ambient Slack WebClient: the two lookup calls the handler makes,
and whether chat_postEphemeral raises a SlackApiError when called. -/
structure SlackClient where
  users_info : List Char → LookupOutcome
  conversations_replies : List Char → List Char → FetchOutcome
  postEphemeralFails : Bool

/-- Username resolution for one user id, lines 91-101 (and identically
113-123) of src/agent.py: an ok response yields real_name, an ok-false
response yields the placeholder, a SlackApiError whose string mentions
missing_scope yields the placeholder, and any other failure re-raises. -/
def resolveUsername (client : SlackClient) (u : List Char) : Except PyErr (List Char) :=
  match client.users_info u with
  | LookupOutcome.ok name => Except.ok name
  | LookupOutcome.notOk => Except.ok ("User-".toList ++ u)
  | LookupOutcome.apiError msg =>
    if containsSub "missing_scope".toList msg then Except.ok ("User-".toList ++ u)
    else Except.error PyErr.otherError
  | LookupOutcome.raised => Except.error PyErr.otherError

/-- Lines 110-124: one entry of a rich_text_section's elements; a user
mention replaces its raw token in the text with the resolved name. -/
def procMention (client : SlackClient) (text : List Char) (m : UserMentionEl) :
    Except PyErr (List Char) := do
  let mtype ← requiredKey m.type
  if mtype = "user".toList then
    let user_id ← requiredKey m.user_id
    let mention_name ← resolveUsername client user_id
    pure (replaceAll ("<@".toList ++ user_id ++ ">".toList) ("@".toList ++ mention_name) text)
  else
    pure text

/-- Lines 109-124: one element of a rich_text block. -/
def procRTElement (client : SlackClient) (text : List Char) (el : RTElement) :
    Except PyErr (List Char) := do
  let etype ← requiredKey el.type
  if etype = "rich_text_section".toList then
    match el.elements with
    | some ms => ms.foldlM (procMention client) text
    | none => Except.error PyErr.keyError
  else
    pure text

/-- Lines 106-124: one entry of msg's blocks. -/
def procBlock (client : SlackClient) (text : List Char) (b : MsgBlock) :
    Except PyErr (List Char) := do
  let btype ← requiredKey b.type
  if btype = "rich_text".toList then
    match b.elements with
    | some els => els.foldlM (procRTElement client) text
    | none => Except.error PyErr.keyError
  else
    pure text

/-- The body of the per-message try of lines 89-126: resolve the author,
read the text, rewrite in-line mentions, and format one transcript line. -/
def runMsg (client : SlackClient) (msg : Message) : Except PyErr (List Char) := do
  let u ← requiredKey msg.user
  let username ← resolveUsername client u
  let text0 ← requiredKey msg.text
  let text ← (msg.blocks.getD []).foldlM (procBlock client) text0
  pure (username ++ ": ".toList ++ text)

/-- One message's transcript line, lines 89-132: the formatted line, or on
any per-message error the Unknown User fallback of line 131. -/
def processMsg (client : SlackClient) (msg : Message) : List Char :=
  match runMsg client msg with
  | Except.ok line => line
  | Except.error _ => "Unknown User: ".toList ++ msg.text.getD "No text available".toList

/-- What follows Unknown User in the fallback line of line 131:
msg.get of the text key with the default No text available. -/
def msg_fallback_text (msg : Message) : List Char :=
  msg.text.getD "No text available".toList

/-- The formatted_messages list built by the loop of lines 87-132, one
entry per fetched message. -/
def transcriptLines (client : SlackClient) (msgs : List Message) : List (List Char) :=
  msgs.map (processMsg client)

/-- get_thread_messages of src/agent.py lines 68-143: fetch the thread
replies; on an ok-false response or a raised exception return None,
otherwise join the per-message lines with newlines. -/
def get_thread_messages (client : SlackClient) (channel_id thread_ts : List Char) :
    Option (List Char) :=
  match client.conversations_replies channel_id thread_ts with
  | FetchOutcome.ok msgs => some (joinSep '\n' (transcriptLines client msgs))
  | FetchOutcome.notOk => none
  | FetchOutcome.raised => none

/-- Python truthiness of an optional string: None and the empty string
are falsy, any nonempty string is truthy. -/
def truthyStr : Option (List Char) → Bool
  | none => false
  | some s => !s.isEmpty

/-- One outgoing delivery call made by the handler: say posts a public
threaded reply, ephemeral calls client.chat_postEphemeral.  The recorded
thread_ts argument is each call's anchor. -/
inductive Reply where
  | say (text : List Char) (thread_ts : List Char)
  | ephemeral (channel user text thread_ts : List Char)
deriving DecidableEq

/-- The thread anchor a delivery call was given. -/
def Reply.anchor : Reply → List Char
  | Reply.say _ ts => ts
  | Reply.ephemeral _ _ _ ts => ts

/-- Whether the delivery call is the ephemeral (visibility-restricted)
one. -/
def Reply.isEphemeral : Reply → Bool
  | Reply.say _ _ => false
  | Reply.ephemeral _ _ _ _ => true

/-- The event dict of the inbound body; every key the handler reads. -/
structure EventDict where
  text : Option (List Char)
  user : Option (List Char)
  channel : Option (List Char)
  ts : Option (List Char)
  thread_ts : Option (List Char)

/-- The inbound request body; the handler reads body with the event key. -/
structure Body where
  event : Option EventDict

/-- The two model chains built at startup; each invoke is modelled as a
function from the prompt variable to the model's output string. -/
structure Chains where
  summarize_chain : List Char → List Char
  chat_chain : List Char → List Char

/-- What one handle_mention invocation did: the delivery calls it made, in
order, and whether an exception escaped the handler. -/
structure HMResult where
  replies : List Reply
  escaped : Bool
deriving DecidableEq

/-- The error message of lines 214-220. -/
def fetchErrorText : List Char :=
  ("I couldn't fetch the thread messages. This might be because:\n" ++
   "1. I don't have permission to access the channel history\n" ++
   "2. The thread is too old or has been deleted\n" ++
   "3. There was an error connecting to Slack\n\n" ++
   "Please make sure I have the necessary permissions and try again.").toList

/-- The fallback of lines 208 and 232 when the ephemeral post fails. -/
def ephemeralFailText : List Char :=
  "I encountered an error sending you a private message. Please check my permissions.".toList

/-- The chat-path fallback of line 242. -/
def chatFallbackText : List Char :=
  "I couldn't generate a response. Please try rephrasing your question.".toList

/-- The KeyError apology of line 248. -/
def keyErrorApologyText : List Char :=
  "I encountered an error processing your message. Please try again.".toList

/-- The generic apology of line 253. -/
def genericApologyText : List Char :=
  "I encountered an unexpected error. Please try again later.".toList

/-- The summarization directive prepended at lines 182-186. -/
def summarizeDirectiveText : List Char :=
  "Please summarize the following Slack conversation, focusing on key points, decisions, and action items:\n\n".toList

/-- The header of the formatted summary, lines 191-195. -/
def summaryHeaderText : List Char := "*Thread Summary:*\n\n".toList

/-- The trailing note of the formatted summary, lines 191-195. -/
def summaryNoteText : List Char :=
  "\n\n_Note: This summary was generated using AI and may not be perfect._".toList

/-- The delivery logic the summarize path duplicates verbatim, lines
197-212 and 222-235 of src/agent.py: when is_private, call
chat_postEphemeral with the message anchored at thread_ts, and if that
raises a SlackApiError fall back to a public say anchored at event_ts;
otherwise say the message publicly anchored at event_ts. -/
def deliverRequested (client : SlackClient) (channel user msg : List Char)
    (is_private : Bool) (thread_ts event_ts : List Char) : List Reply :=
  if is_private then
    if client.postEphemeralFails then
      [Reply.ephemeral channel user msg thread_ts, Reply.say ephemeralFailText event_ts]
    else
      [Reply.ephemeral channel user msg thread_ts]
  else
    [Reply.say msg event_ts]

/-- The formatted summary reply of lines 181-195: header, the summarize
chain's output on the directive plus transcript, and the trailing note. -/
def formattedSummary (client : SlackClient) (ch : Chains) (channel thread_ts : List Char) :
    List Char :=
  summaryHeaderText ++
    ch.summarize_chain
      (summarizeDirectiveText ++ (get_thread_messages client channel thread_ts).getD []) ++
    summaryNoteText

/-- The try block of handle_mention, src/agent.py lines 157-243: reads the
event keys in source order (a missing key raises KeyError), cleans and
lowercases the text, then routes to the summarize or chat path.  Returns
the delivery calls made, or the error that escapes to the except clauses. -/
def handle_mention_try (e : EventDict) (client : SlackClient) (ch : Chains) :
    Except PyErr (List Reply) :=
  match e.text with
  | none => Except.error PyErr.keyError
  | some text =>
  match e.user with
  | none => Except.error PyErr.keyError
  | some user =>
  match e.channel with
  | none => Except.error PyErr.keyError
  | some channel =>
  match e.ts with
  | none => Except.error PyErr.keyError
  | some event_ts =>
  if classify (toLowerL (clean_message_text text)) = Intent.SummarizeThread then
    if truthyStr (get_thread_messages client channel (e.thread_ts.getD event_ts)) then
      Except.ok (deliverRequested client channel user
        (formattedSummary client ch channel (e.thread_ts.getD event_ts))
        (isPrivateRequest (toLowerL (clean_message_text text)))
        (e.thread_ts.getD event_ts) event_ts)
    else
      Except.ok (deliverRequested client channel user fetchErrorText
        (isPrivateRequest (toLowerL (clean_message_text text)))
        (e.thread_ts.getD event_ts) event_ts)
  else
    if !(ch.chat_chain (toLowerL (clean_message_text text))).isEmpty then
      Except.ok [Reply.say (ch.chat_chain (toLowerL (clean_message_text text))) event_ts]
    else
      Except.ok [Reply.say chatFallbackText event_ts]

/-- handle_mention, src/agent.py lines 154-253.  The except clauses reply
with an apology anchored at body's event ts; reading that key again can
itself raise (KeyError inside the except clause), in which case the new
exception escapes the handler and no reply is sent. -/
def handle_mention (body : Body) (client : SlackClient) (ch : Chains) : HMResult :=
  match body.event with
  | none => { replies := [], escaped := true }
  | some e =>
    match handle_mention_try e client ch with
    | Except.ok rs => { replies := rs, escaped := false }
    | Except.error PyErr.keyError =>
      match e.ts with
      | some ts => { replies := [Reply.say keyErrorApologyText ts], escaped := false }
      | none => { replies := [], escaped := true }
    | Except.error PyErr.otherError =>
      match e.ts with
      | some ts => { replies := [Reply.say genericApologyText ts], escaped := false }
      | none => { replies := [], escaped := true }

/-- A concrete MentionFree input for the C4 witness. -/
def c4input : List Char := '<' :: '@' :: (('U' :: '1' :: []) ++ '>' :: (' ' :: 'h' :: 'i' :: []))

/-- A concrete user directory for witnesses: U1 resolves, U2 fails with a
missing_scope SlackApiError, everyone else raises some other exception. -/
def witness_users_info (u : List Char) : LookupOutcome :=
  if u = "U1".toList then LookupOutcome.ok "Alice A".toList
  else if u = "U2".toList then LookupOutcome.apiError "the request failed: missing_scope".toList
  else LookupOutcome.raised

def witnessMention : UserMentionEl :=
  { type := some "user".toList, user_id := some "U2".toList }

def witnessSection : RTElement :=
  { type := some "rich_text_section".toList, elements := some [witnessMention] }

def witnessBlock : MsgBlock :=
  { type := some "rich_text".toList, elements := some [witnessSection] }

/-- A well-formed message whose in-line mention of U2 needs the
missing_scope fallback. -/
def witnessMsg1 : Message :=
  { user := some "U1".toList, text := some "hello <@U2>".toList, blocks := some [witnessBlock] }

/-- A malformed message with no user key: its per-message processing
fails. -/
def witnessMsg2 : Message :=
  { user := none, text := some "orphan".toList, blocks := none }

def witnessClient : SlackClient :=
  { users_info := witness_users_info,
    conversations_replies := fun _ _ => FetchOutcome.ok [witnessMsg1, witnessMsg2],
    postEphemeralFails := false }

/-- A chains oracle for counterexamples and witnesses: the chat chain
echoes its prompt, the summarize chain returns a fixed summary. -/
def witnessChains : Chains :=
  { summarize_chain := fun _ => "the summary".toList, chat_chain := fun q => q }

/-- A threaded mention event: the event sits inside the thread rooted at
100, and its own ts is 200. -/
def threadedChatEvent : EventDict :=
  { text := some "hello".toList, user := some "U1".toList, channel := some "C1".toList,
    ts := some "200".toList, thread_ts := some "100".toList }

def threadedChatBody : Body := { event := some threadedChatEvent }

/-- A private summarize request inside the thread rooted at 100. -/
def privateSummarizeEvent : EventDict :=
  { text := some "please summarize thread, private".toList, user := some "U1".toList,
    channel := some "C1".toList, ts := some "200".toList, thread_ts := some "100".toList }

def privateSummarizeBody : Body := { event := some privateSummarizeEvent }

/-- A client whose thread fetch always reports ok false. -/
def fetchFailClient : SlackClient :=
  { users_info := witness_users_info,
    conversations_replies := fun _ _ => FetchOutcome.notOk,
    postEphemeralFails := false }

/-- A public (non-private) summarize request with no enclosing thread. -/
def summarizeEvent : EventDict :=
  { text := some "summarize thread".toList, user := some "U1".toList,
    channel := some "C1".toList, ts := some "200".toList, thread_ts := none }

def summarizeBody : Body := { event := some summarizeEvent }

/-- A chains oracle whose chat chain never produces output. -/
def emptyChatChains : Chains :=
  { summarize_chain := fun _ => "the summary".toList, chat_chain := fun _ => [] }

/-- A plain chat mention. -/
def chatEvent : EventDict :=
  { text := some "what is rust".toList, user := some "U1".toList,
    channel := some "C1".toList, ts := some "200".toList, thread_ts := none }

def chatBody : Body := { event := some chatEvent }

/-- An event whose dict has no ts key: reading it raises KeyError, and the
except clause of line 248 reads the same missing key again. -/
def noTsEvent : EventDict :=
  { text := some "hello".toList, user := some "U1".toList, channel := some "C1".toList,
    ts := none, thread_ts := none }

def noTsBody : Body := { event := some noTsEvent }

/-- A client whose fetch succeeds with an empty message list. -/
def emptyThreadClient : SlackClient :=
  { users_info := witness_users_info,
    conversations_replies := fun _ _ => FetchOutcome.ok [],
    postEphemeralFails := false }

theorem startsWith_iff (p : List Char) : ∀ s, startsWith p s = true ↔ ∃ t, s = p ++ t := by
  induction p with
  | nil => intro s; simp [startsWith]
  | cons a p ih =>
    intro s
    cases s with
    | nil =>
      simp [startsWith]
    | cons b s =>
      simp only [startsWith, Bool.and_eq_true, beq_iff_eq, ih, List.cons_append]
      constructor
      · rintro ⟨rfl, t, rfl⟩; exact ⟨t, rfl⟩
      · rintro ⟨t, h⟩
        injection h with h1 h2
        exact ⟨h1.symm, t, h2⟩

theorem containsSub_iff (p : List Char) :
    ∀ s, containsSub p s = true ↔ ∃ u v, s = u ++ p ++ v := by
  intro s
  induction s with
  | nil =>
    simp only [containsSub, startsWith_iff]
    constructor
    · rintro ⟨t, h⟩
      exact ⟨[], t, by simpa using h⟩
    · rintro ⟨u, v, h⟩
      rw [List.append_assoc] at h
      rcases List.append_eq_nil.mp h.symm with ⟨rfl, h2⟩
      exact ⟨v, by simpa using h⟩
  | cons c s ih =>
    simp only [containsSub, Bool.or_eq_true, startsWith_iff, ih]
    constructor
    · rintro (⟨t, h⟩ | ⟨u, v, rfl⟩)
      · exact ⟨[], t, by simpa using h⟩
      · exact ⟨c :: u, v, by simp⟩
    · rintro ⟨u, v, h⟩
      cases u with
      | nil => exact Or.inl ⟨v, by simpa using h⟩
      | cons c' u =>
        right
        rw [List.cons_append, List.cons_append] at h
        injection h with h1 h2
        exact ⟨u, v, h2⟩

theorem matchMention_shorter (l r : List Char) (h : matchMention l = some r) :
    r.length < l.length := by
  unfold matchMention at h
  split at h
  · rename_i c1 c2 rest
    split at h
    · split at h
      · simp at h
      · split at h
        · rename_i d rest2 hdw
          split at h
          · injection h with h'
            have hsub : (List.dropWhile isIdChar rest).length ≤ rest.length :=
              (List.dropWhile_sublist isIdChar).length_le
            rw [hdw] at hsub
            subst h'
            simp only [List.length_cons] at hsub ⊢
            omega
          · simp at h
        · simp at h
    · simp at h
  · simp at h

theorem subMentionsF_congr :
    ∀ (n : Nat) (l : List Char) (f₁ f₂ : Nat), l.length ≤ n → l.length ≤ f₁ →
      l.length ≤ f₂ → subMentionsF f₁ l = subMentionsF f₂ l := by
  intro n
  induction n with
  | zero =>
    intro l f₁ f₂ hn _ _
    have : l = [] := List.length_eq_zero.mp (Nat.le_zero.mp hn)
    subst this
    cases f₁ <;> cases f₂ <;> rfl
  | succ n ih =>
    intro l f₁ f₂ hn h1 h2
    cases l with
    | nil => cases f₁ <;> cases f₂ <;> rfl
    | cons c rest =>
      simp only [List.length_cons] at hn h1 h2
      cases f₁ with
      | zero => omega
      | succ g₁ =>
        cases f₂ with
        | zero => omega
        | succ g₂ =>
          simp only [subMentionsF]
          cases hm : matchMention (c :: rest) with
          | some rest2 =>
            have hlt : rest2.length < rest.length + 1 := by
              simpa using matchMention_shorter _ _ hm
            exact ih rest2 g₁ g₂ (by omega) (by omega) (by omega)
          | none =>
            rw [ih rest g₁ g₂ (by omega) (by omega) (by omega)]

theorem matchMention_cons_ne (c : Char) (rest : List Char) (h : c ≠ '<') :
    matchMention (c :: rest) = none := by
  cases rest with
  | nil => rfl
  | cons c2 rest' =>
    simp only [matchMention]
    rw [if_neg]
    simp [h]

theorem subMentions_cons_ne (c : Char) (rest : List Char) (h : c ≠ '<') :
    subMentions (c :: rest) = c :: subMentions rest := by
  simp only [subMentions, List.length_cons, subMentionsF, matchMention_cons_ne c rest h]

theorem takeWhile_all_append (p : Char → Bool) (d : Char) (hd : p d = false) :
    ∀ (l₁ t : List Char), (∀ c ∈ l₁, p c = true) →
      (l₁ ++ d :: t).takeWhile p = l₁ ∧ (l₁ ++ d :: t).dropWhile p = d :: t := by
  intro l₁
  induction l₁ with
  | nil => intro t _; simp [List.takeWhile, List.dropWhile, hd]
  | cons a l ih =>
    intro t h
    have ha : p a = true := h a (by simp)
    have hrest := ih t (fun c hc => h c (by simp [hc]))
    simp [List.takeWhile, List.dropWhile, ha, hrest.1, hrest.2]

theorem matchMention_token (id t : List Char) (h1 : id ≠ [])
    (h2 : ∀ c ∈ id, isIdChar c = true) :
    matchMention ('<' :: '@' :: (id ++ '>' :: t)) = some t := by
  have hgt : isIdChar '>' = false := by decide
  have htw := takeWhile_all_append isIdChar '>' hgt id t h2
  simp only [matchMention, htw.1, htw.2]
  rw [if_pos (by simp)]
  rw [if_neg (by simpa using h1)]
  simp

theorem subMentions_token (id t : List Char) (h1 : id ≠ [])
    (h2 : ∀ c ∈ id, isIdChar c = true) :
    subMentions ('<' :: '@' :: (id ++ '>' :: t)) = subMentions t := by
  have hlen : ('<' :: '@' :: (id ++ '>' :: t)).length = (id.length + t.length + 2) + 1 := by
    simp only [List.length_cons, List.length_append]
    omega
  rw [subMentions, hlen]
  simp only [subMentionsF, matchMention_token id t h1 h2]
  exact subMentionsF_congr (id.length + t.length + 2) t _ _ (by omega) (by omega) le_rfl

theorem adjacentOk_cons (a : Char) (l : List Char) :
    adjacentOk (a :: l) = ((!(isPySpace a && headIsSpace l)) && adjacentOk l) := by
  cases l with
  | nil => simp [adjacentOk, headIsSpace]
  | cons b t => rfl

/-- Every word pySplitAux emits is nonempty and free of whitespace,
provided the accumulator is. -/
theorem pySplitAux_words :
    ∀ (l acc : List Char), (∀ c ∈ acc, isPySpace c = false) →
      ∀ w ∈ pySplitAux l acc, w ≠ [] ∧ ∀ c ∈ w, isPySpace c = false := by
  intro l
  induction l with
  | nil =>
    intro acc hacc w hw
    simp only [pySplitAux] at hw
    split at hw
    · simp at hw
    · rename_i hne
      simp only [List.mem_singleton] at hw
      subst hw
      constructor
      · simp only [ne_eq, List.reverse_eq_nil_iff]
        simpa [List.isEmpty_iff] using hne
      · intro c hc
        exact hacc c (List.mem_reverse.mp hc)
  | cons x rest ih =>
    intro acc hacc w hw
    simp only [pySplitAux] at hw
    split at hw
    · split at hw
      · exact ih [] (by simp) w hw
      · rename_i hne
        rcases List.mem_cons.mp hw with rfl | hw'
        · constructor
          · simp only [ne_eq, List.reverse_eq_nil_iff]
            simpa [List.isEmpty_iff] using hne
          · intro c hc
            exact hacc c (List.mem_reverse.mp hc)
        · exact ih [] (by simp) w hw'
    · rename_i hx
      refine ih (x :: acc) ?_ w hw
      intro c hc
      rcases List.mem_cons.mp hc with rfl | hc'
      · simpa using hx
      · exact hacc c hc'

/-- Every character of a pySplitAux word comes from the input or the
accumulator. -/
theorem pySplitAux_chars :
    ∀ (l acc : List Char), ∀ w ∈ pySplitAux l acc, ∀ c ∈ w, c ∈ l ∨ c ∈ acc := by
  intro l
  induction l with
  | nil =>
    intro acc w hw c hc
    simp only [pySplitAux] at hw
    split at hw
    · simp at hw
    · simp only [List.mem_singleton] at hw
      subst hw
      exact Or.inr (List.mem_reverse.mp hc)
  | cons x rest ih =>
    intro acc w hw c hc
    simp only [pySplitAux] at hw
    split at hw
    · split at hw
      · rcases ih [] w hw c hc with h | h
        · exact Or.inl (List.mem_cons_of_mem x h)
        · simp at h
      · rcases List.mem_cons.mp hw with rfl | hw'
        · exact Or.inr (List.mem_reverse.mp hc)
        · rcases ih [] w hw' c hc with h | h
          · exact Or.inl (List.mem_cons_of_mem x h)
          · simp at h
    · rcases ih (x :: acc) w hw c hc with h | h
      · exact Or.inl (List.mem_cons_of_mem x h)
      · rcases List.mem_cons.mp h with rfl | h'
        · exact Or.inl (List.mem_cons_self c rest)
        · exact Or.inr h'

theorem pyStrip_subset (l : List Char) : ∀ c ∈ pyStrip l, c ∈ l := by
  intro c hc
  simp only [pyStrip, List.mem_reverse] at hc
  have h1 := (List.dropWhile_sublist isPySpace).subset hc
  rw [List.mem_reverse] at h1
  exact (List.dropWhile_sublist isPySpace).subset h1

theorem joinSep_chars (sep : Char) :
    ∀ ws : List (List Char), ∀ c ∈ joinSep sep ws, c = sep ∨ ∃ w ∈ ws, c ∈ w := by
  intro ws
  induction ws with
  | nil => intro c hc; simp [joinSep] at hc
  | cons w ws ih =>
    intro c hc
    cases ws with
    | nil =>
      simp only [joinSep] at hc
      exact Or.inr ⟨w, by simp, hc⟩
    | cons w2 ws' =>
      simp only [joinSep, List.mem_append, List.mem_cons] at hc
      rcases hc with hc | hc | hc
      · exact Or.inr ⟨w, by simp, hc⟩
      · exact Or.inl hc
      · rcases ih c hc with h | ⟨w', hw', hcw'⟩
        · exact Or.inl h
        · exact Or.inr ⟨w', List.mem_cons_of_mem w hw', hcw'⟩

theorem adjacentOk_append (u v : List Char) (hu : ∀ c ∈ u, isPySpace c = false)
    (hv : adjacentOk v = true) : adjacentOk (u ++ v) = true := by
  induction u with
  | nil => simpa using hv
  | cons a u ih =>
    rw [List.cons_append, adjacentOk_cons]
    have ha : isPySpace a = false := hu a (by simp)
    simp only [ha, Bool.false_and, Bool.not_false, Bool.true_and]
    exact ih (fun c hc => hu c (by simp [hc]))

theorem joinSep_ne_nil (sep : Char) (w : List Char) (ws : List (List Char))
    (hw : w ≠ []) : joinSep sep (w :: ws) ≠ [] := by
  cases ws with
  | nil => simpa [joinSep] using hw
  | cons w2 ws' =>
    simp only [joinSep, ne_eq, List.append_eq_nil]
    intro h
    exact hw h.1

theorem joinSep_headIsSpace (sep : Char) (w : List Char) (ws : List (List Char))
    (hw : w ≠ []) (hwsp : ∀ c ∈ w, isPySpace c = false) :
    headIsSpace (joinSep sep (w :: ws)) = false := by
  cases w with
  | nil => exact absurd rfl hw
  | cons c w' =>
    have hc : isPySpace c = false := hwsp c (by simp)
    cases ws with
    | nil => simpa [joinSep, headIsSpace] using hc
    | cons w2 ws' => simpa [joinSep, headIsSpace] using hc

theorem joinSep_lastIsSpace (sep : Char) :
    ∀ ws : List (List Char), (∀ w ∈ ws, w ≠ [] ∧ ∀ c ∈ w, isPySpace c = false) →
      lastIsSpace (joinSep sep ws) = false := by
  intro ws
  induction ws with
  | nil => intro _; rfl
  | cons w ws ih =>
    intro h
    cases ws with
    | nil =>
      obtain ⟨hw, hwsp⟩ := h w (by simp)
      simp only [joinSep, lastIsSpace]
      cases hl : w.getLast? with
      | none => rfl
      | some c =>
        have hmem : c ∈ w.getLast? := by rw [hl]; rfl
        obtain ⟨hne, hceq⟩ := List.mem_getLast?_eq_getLast hmem
        have hc : c ∈ w := hceq ▸ List.getLast_mem hne
        exact hwsp c hc
    | cons w2 ws' =>
      have hrec := ih (fun w' hw' => h w' (List.mem_cons_of_mem w hw'))
      obtain ⟨hw2, _⟩ := h w2 (by simp)
      have hne : joinSep sep (w2 :: ws') ≠ [] := joinSep_ne_nil sep w2 ws' hw2
      simp only [joinSep, lastIsSpace, List.getLast?_append_cons]
      cases hj : joinSep sep (w2 :: ws') with
      | nil => exact absurd hj hne
      | cons x j' =>
        rw [List.getLast?_cons_cons]
        simp only [joinSep, lastIsSpace, hj] at hrec
        exact hrec

theorem joinSep_adjacentOk :
    ∀ ws : List (List Char), (∀ w ∈ ws, w ≠ [] ∧ ∀ c ∈ w, isPySpace c = false) →
      adjacentOk (joinSep ' ' ws) = true := by
  intro ws
  induction ws with
  | nil => intro _; rfl
  | cons w ws ih =>
    intro h
    obtain ⟨hw, hwsp⟩ := h w (by simp)
    cases ws with
    | nil =>
      have hap := adjacentOk_append w [] hwsp rfl
      simpa [joinSep] using hap
    | cons w2 ws' =>
      have hrec := ih (fun w' hw' => h w' (List.mem_cons_of_mem w hw'))
      obtain ⟨hw2, hw2sp⟩ := h w2 (by simp)
      simp only [joinSep]
      refine adjacentOk_append w (' ' :: joinSep ' ' (w2 :: ws')) hwsp ?_
      rw [adjacentOk_cons]
      have hhead : headIsSpace (joinSep ' ' (w2 :: ws')) = false :=
        joinSep_headIsSpace ' ' w2 ws' hw2 hw2sp
      simp [hhead, hrec]

theorem joinSep_wsClean (ws : List (List Char))
    (h : ∀ w ∈ ws, w ≠ [] ∧ ∀ c ∈ w, isPySpace c = false) :
    wsClean (joinSep ' ' ws) = true := by
  cases ws with
  | nil => rfl
  | cons w ws' =>
    obtain ⟨hw, hwsp⟩ := h w (by simp)
    simp only [wsClean, Bool.and_eq_true, Bool.not_eq_true']
    refine ⟨⟨joinSep_headIsSpace ' ' w ws' hw hwsp, ?_⟩, ?_⟩
    · exact joinSep_lastIsSpace ' ' (w :: ws') h
    · exact joinSep_adjacentOk (w :: ws') h

theorem subMentions_no_markup (l : List Char) (h : MentionFree l) :
    ∀ c ∈ subMentions l, c ≠ '<' ∧ c ≠ '@' := by
  induction h with
  | nil => intro c hc; simp [subMentions, subMentionsF] at hc
  | chr c t h1 h2 _ ih =>
    intro c' hc'
    rw [subMentions_cons_ne c t h1] at hc'
    rcases List.mem_cons.mp hc' with rfl | hc''
    · exact ⟨h1, h2⟩
    · exact ih c' hc''
  | tok id t h1 h2 _ ih =>
    intro c' hc'
    rw [subMentions_token id t h1 h2] at hc'
    exact ih c' hc'

theorem clean_message_text_chars (l : List Char) :
    ∀ c ∈ clean_message_text l, c = ' ' ∨ c ∈ subMentions l := by
  intro c hc
  rcases joinSep_chars ' ' (pySplit (pyStrip (subMentions l))) c hc with h | ⟨w, hw, hcw⟩
  · exact Or.inl h
  · rcases pySplitAux_chars (pyStrip (subMentions l)) [] w hw c hcw with h | h
    · exact Or.inr (pyStrip_subset (subMentions l) c h)
    · simp at h

theorem no_lt_no_marker (s : List Char) (h : ∀ c ∈ s, c ≠ '<') :
    containsSub ('<' :: '@' :: []) s = false := by
  by_contra hcon
  rw [Bool.not_eq_false, containsSub_iff] at hcon
  obtain ⟨u, v, rfl⟩ := hcon
  exact h '<' (by simp) rfl

theorem any_of_perm {α : Type} (f : α → Bool) {ps qs : List α} (h : ps.Perm qs) :
    ps.any f = qs.any f := by
  cases hp : ps.any f <;> cases hq : qs.any f <;> try rfl
  · rw [List.any_eq_true] at hq
    obtain ⟨x, hx, hfx⟩ := hq
    have hcon := List.any_eq_true.mpr ⟨x, h.mem_iff.mpr hx, hfx⟩
    rw [hp] at hcon
    cases hcon
  · rw [List.any_eq_true] at hp
    obtain ⟨x, hx, hfx⟩ := hp
    have hcon := List.any_eq_true.mpr ⟨x, h.mem_iff.mp hx, hfx⟩
    rw [hq] at hcon
    cases hcon

theorem classifyWith_eq_summarize (ps : List (List Char)) (t : List Char) :
    classifyWith ps t = Intent.SummarizeThread ↔ ps.any (fun p => containsSub p t) = true := by
  unfold classifyWith
  by_cases h : ps.any (fun p => containsSub p t) = true
  · rw [if_pos h]
    simp [h]
  · rw [if_neg h]
    simp [h]

/-- C5: intent classification returns SummarizeThread exactly when the text
contains one of the three trigger phrases as a substring, and the result
does not depend on the order in which the phrases are listed. -/
theorem classify_substring_trigger (t : List Char) :
    (classify t = Intent.SummarizeThread ↔
      ((∃ u v, t = u ++ "summarize thread".toList ++ v) ∨
       (∃ u v, t = u ++ "sumarize thread".toList ++ v) ∨
       (∃ u v, t = u ++ "thread summary".toList ++ v))) ∧
    (∀ ps : List (List Char), ps.Perm trigger_phrases → classifyWith ps t = classify t) := by
  constructor
  · rw [classify, classifyWith_eq_summarize]
    simp only [trigger_phrases, List.any_cons, List.any_nil, Bool.or_eq_true,
      Bool.or_false, containsSub_iff]
  · intro ps hperm
    rw [classify, classifyWith, classifyWith, any_of_perm (fun p => containsSub p t) hperm]

/-- C5 witness: a concrete text containing a trigger phrase, classified the
same under a permuted phrase list. -/
theorem classify_substring_trigger_witness :
    (classify "please summarize thread now".toList = Intent.SummarizeThread ↔
      ((∃ u v, "please summarize thread now".toList = u ++ "summarize thread".toList ++ v) ∨
       (∃ u v, "please summarize thread now".toList = u ++ "sumarize thread".toList ++ v) ∨
       (∃ u v, "please summarize thread now".toList = u ++ "thread summary".toList ++ v))) ∧
    (["thread summary".toList, "sumarize thread".toList, "summarize thread".toList].Perm
        trigger_phrases ∧
      classifyWith ["thread summary".toList, "sumarize thread".toList, "summarize thread".toList]
          "please summarize thread now".toList =
        classify "please summarize thread now".toList) :=
  ⟨(classify_substring_trigger "please summarize thread now".toList).1,
   by decide,
   (classify_substring_trigger "please summarize thread now".toList).2
     ["thread summary".toList, "sumarize thread".toList, "summarize thread".toList] (by decide)⟩

/-- C6: the privacy flag is set exactly when the normalized text contains
the substring "private" or the substring "me only".  The flag is computed
from the text alone (isPrivateRequest takes no other input), so it is
independent of whether the intent is SummarizeThread or Chat. -/
theorem is_private_substring (t : List Char) :
    isPrivateRequest t = true ↔
      ((∃ u v, t = u ++ "private".toList ++ v) ∨ (∃ u v, t = u ++ "me only".toList ++ v)) := by
  simp only [isPrivateRequest, Bool.or_eq_true, containsSub_iff]

/-- C4 counterexample: the input consisting of the single mention token
with the lowercase alphanumeric id abc.  The regex of clean_message_text
only matches uppercase ids, so the token survives and the output contains
the substring represented by the characters < and @. -/
theorem clean_message_text_markup_cex :
    containsSub ('<' :: '@' :: []) (clean_message_text "<@abc>".toList) = true := by decide

/-- C4 (amended): for inputs interleaving mention tokens with
uppercase-alphanumeric ids and ordinary text free of the characters < and @,
the cleaned output contains no mention marker; and for every input
whatsoever the output has no leading, trailing or doubled whitespace (the
second conjunct is unconditional). -/
theorem clean_message_text_normal_form (l : List Char) :
    (MentionFree l → containsSub ('<' :: '@' :: []) (clean_message_text l) = false) ∧
    wsClean (clean_message_text l) = true := by
  constructor
  · intro h
    apply no_lt_no_marker
    intro c hc
    rcases clean_message_text_chars l c hc with rfl | hmem
    · decide
    · exact (subMentions_no_markup l h c hmem).1
  · unfold clean_message_text
    apply joinSep_wsClean
    exact pySplitAux_words _ [] (by simp)

/-- C4 witness: the amended statement holds at a concrete token-plus-text
input, with the MentionFree hypothesis of the first conjunct discharged by
an explicit derivation. -/
theorem clean_message_text_normal_form_witness :
    containsSub ('<' :: '@' :: []) (clean_message_text c4input) = false ∧
    wsClean (clean_message_text c4input) = true :=
  ⟨(clean_message_text_normal_form c4input).1
    (MentionFree.tok ('U' :: '1' :: []) (' ' :: 'h' :: 'i' :: []) (by decide) (by decide)
      (MentionFree.chr ' ' ('h' :: 'i' :: []) (by decide) (by decide)
        (MentionFree.chr 'h' ('i' :: []) (by decide) (by decide)
          (MentionFree.chr 'i' [] (by decide) (by decide) MentionFree.nil)))),
   (clean_message_text_normal_form c4input).2⟩

/-- C1: when the thread fetch reports ok, get_thread_messages returns the
newline-join of the formatted_messages list, which has exactly one line per
returned message, in platform order (line i comes from message i), and a
message whose per-message processing fails still contributes its line,
beginning Unknown User. -/
theorem transcript_one_line_per_message (client : SlackClient)
    (channel_id thread_ts : List Char) (msgs : List Message)
    (h : client.conversations_replies channel_id thread_ts = FetchOutcome.ok msgs) :
    get_thread_messages client channel_id thread_ts =
      some (joinSep '\n' (transcriptLines client msgs)) ∧
    (transcriptLines client msgs).length = msgs.length ∧
    (∀ (i : Nat) (m : Message), msgs[i]? = some m →
      (transcriptLines client msgs)[i]? = some (processMsg client m)) ∧
    (∀ (i : Nat) (m : Message), msgs[i]? = some m →
      ∀ err, runMsg client m = Except.error err →
        ∃ t, (transcriptLines client msgs)[i]? = some ("Unknown User: ".toList ++ t)) := by
  refine ⟨?_, ?_, ?_, ?_⟩
  · unfold get_thread_messages
    rw [h]
  · simp [transcriptLines]
  · intro i m hm
    simp [transcriptLines, List.getElem?_map, hm]
  · intro i m hm err herr
    refine ⟨msg_fallback_text m, ?_⟩
    have hpm : processMsg client m = "Unknown User: ".toList ++ msg_fallback_text m := by
      unfold processMsg msg_fallback_text
      rw [herr]
    simp [transcriptLines, List.getElem?_map, hm, hpm]

/-- C2: resolution of one user id.  A SlackApiError whose string mentions
missing_scope yields the placeholder User- followed by the id without
raising; a SlackApiError without missing_scope, or any other exception, is
re-raised, and when it reaches the per-message handler that message's line
becomes the Unknown User fallback. -/
theorem resolve_user_missing_scope (client : SlackClient) (u emsg : List Char) :
    (client.users_info u = LookupOutcome.apiError emsg →
      ((containsSub "missing_scope".toList emsg = true →
          resolveUsername client u = Except.ok ("User-".toList ++ u)) ∧
       (containsSub "missing_scope".toList emsg = false →
          resolveUsername client u = Except.error PyErr.otherError))) ∧
    (client.users_info u = LookupOutcome.raised →
      resolveUsername client u = Except.error PyErr.otherError) ∧
    (∀ msg : Message, msg.user = some u →
      resolveUsername client u = Except.error PyErr.otherError →
      processMsg client msg = "Unknown User: ".toList ++ msg_fallback_text msg) := by
  refine ⟨?_, ?_, ?_⟩
  · intro h
    constructor
    · intro hms
      unfold resolveUsername
      rw [h]
      simp only [hms, if_true]
    · intro hms
      unfold resolveUsername
      rw [h]
      simp only [hms, Bool.false_eq_true, if_false]
  · intro h
    unfold resolveUsername
    rw [h]
  · intro msg hmu herr
    have hrun : runMsg client msg = Except.error PyErr.otherError := by
      unfold runMsg
      rw [hmu]
      simp [requiredKey, herr, Except.bind, bind]
    unfold processMsg msg_fallback_text
    rw [hrun]

/-- C1 witness: the transcript of a concrete two-message thread, one
message of which fails per-message processing. -/
theorem transcript_one_line_per_message_witness :
    witnessClient.conversations_replies "C".toList "T".toList =
      FetchOutcome.ok [witnessMsg1, witnessMsg2] ∧
    (get_thread_messages witnessClient "C".toList "T".toList =
      some (joinSep '\n' (transcriptLines witnessClient [witnessMsg1, witnessMsg2])) ∧
    (transcriptLines witnessClient [witnessMsg1, witnessMsg2]).length =
      [witnessMsg1, witnessMsg2].length ∧
    (∀ (i : Nat) (m : Message), [witnessMsg1, witnessMsg2][i]? = some m →
      (transcriptLines witnessClient [witnessMsg1, witnessMsg2])[i]? =
        some (processMsg witnessClient m)) ∧
    (∀ (i : Nat) (m : Message), [witnessMsg1, witnessMsg2][i]? = some m →
      ∀ err, runMsg witnessClient m = Except.error err →
        ∃ t, (transcriptLines witnessClient [witnessMsg1, witnessMsg2])[i]? =
          some ("Unknown User: ".toList ++ t))) :=
  ⟨rfl, transcript_one_line_per_message witnessClient "C".toList "T".toList
    [witnessMsg1, witnessMsg2] rfl⟩

/-- C2 witness: U2's lookup fails with a missing_scope SlackApiError and
resolution returns the placeholder. -/
theorem resolve_user_missing_scope_witness :
    witnessClient.users_info "U2".toList =
      LookupOutcome.apiError "the request failed: missing_scope".toList ∧
    containsSub "missing_scope".toList "the request failed: missing_scope".toList = true ∧
    resolveUsername witnessClient "U2".toList = Except.ok ("User-".toList ++ "U2".toList) :=
  ⟨rfl, by decide,
   ((resolve_user_missing_scope witnessClient "U2".toList
      "the request failed: missing_scope".toList).1 rfl).1 (by decide)⟩

theorem deliverRequested_anchor (client : SlackClient) (channel user msg : List Char)
    (is_private : Bool) (thread_ts event_ts : List Char) :
    ∀ r ∈ deliverRequested client channel user msg is_private thread_ts event_ts,
      (r.isEphemeral = true → r.anchor = thread_ts) ∧
      (r.isEphemeral = false → r.anchor = event_ts) := by
  unfold deliverRequested
  split
  · split
    · intro r hr
      rcases List.mem_cons.mp hr with rfl | hr2
      · exact ⟨fun _ => rfl, fun hh => by simp [Reply.isEphemeral] at hh⟩
      · rcases List.mem_singleton.mp hr2 with rfl
        exact ⟨fun hh => by simp [Reply.isEphemeral] at hh, fun _ => rfl⟩
    · intro r hr
      rcases List.mem_singleton.mp hr with rfl
      exact ⟨fun _ => rfl, fun hh => by simp [Reply.isEphemeral] at hh⟩
  · intro r hr
    rcases List.mem_singleton.mp hr with rfl
    exact ⟨fun hh => by simp [Reply.isEphemeral] at hh, fun _ => rfl⟩

theorem handle_mention_try_anchor_shape (e : EventDict) (client : SlackClient) (ch : Chains)
    (event_ts : List Char) (hts : e.ts = some event_ts) (rs : List Reply)
    (hrs : handle_mention_try e client ch = Except.ok rs) :
    ∀ r ∈ rs, (r.isEphemeral = true → r.anchor = e.thread_ts.getD event_ts) ∧
              (r.isEphemeral = false → r.anchor = event_ts) := by
  obtain ⟨otext, ouser, ochan, ots, otts⟩ := e
  dsimp only at hts ⊢
  subst hts
  unfold handle_mention_try at hrs
  dsimp only at hrs
  repeat' split at hrs
  all_goals cases hrs
  all_goals first
    | exact fun r hr => deliverRequested_anchor _ _ _ _ _ _ _ r hr
    | (intro r hr
       rcases List.mem_singleton.mp hr with rfl
       exact ⟨fun hh => by simp [Reply.isEphemeral] at hh, fun _ => rfl⟩)

/-- C3 counterexample: for the threaded chat event whose thread timestamp
is 100, the handler's public reply is anchored at the event's own ts 200,
not at the thread timestamp, so not every reply uses the event's thread
timestamp when the event has one. -/
theorem reply_anchoring_cex :
    threadedChatBody.event = some threadedChatEvent ∧
    threadedChatEvent.thread_ts = some "100".toList ∧
    ¬ (∀ r ∈ (handle_mention threadedChatBody witnessClient witnessChains).replies,
        r.anchor = "100".toList) :=
  ⟨rfl, rfl, by decide⟩

/-- C3 (amended): every reply is anchored inside the original event's
context, but the two kinds of delivery use different anchors: the
ephemeral calls are anchored at the event's thread timestamp (falling
back to the event's own ts when absent), while every public say reply --
summary, chat answer, fallback, error and apology -- is anchored at the
event's own ts. -/
theorem reply_anchoring (body : Body) (client : SlackClient) (ch : Chains)
    (e : EventDict) (event_ts : List Char)
    (he : body.event = some e) (hts : e.ts = some event_ts) :
    ∀ r ∈ (handle_mention body client ch).replies,
      (r.isEphemeral = true → r.anchor = e.thread_ts.getD event_ts) ∧
      (r.isEphemeral = false → r.anchor = event_ts) := by
  unfold handle_mention
  simp only [he]
  cases htry : handle_mention_try e client ch with
  | ok rs =>
    simp only [htry]
    intro r hr
    exact handle_mention_try_anchor_shape e client ch event_ts hts rs htry r hr
  | error err =>
    cases err <;> simp only [htry, hts] <;> intro r hr <;>
      rcases List.mem_singleton.mp hr with rfl <;>
      exact ⟨fun hh => by simp [Reply.isEphemeral] at hh, fun _ => rfl⟩

/-- C3 witness: the amended anchoring at the concrete threaded event, for
a private summarize request (whose ephemeral reply anchors at the thread
timestamp). -/
theorem reply_anchoring_witness :
    privateSummarizeBody.event = some privateSummarizeEvent ∧
    privateSummarizeEvent.ts = some "200".toList ∧
    ∀ r ∈ (handle_mention privateSummarizeBody witnessClient witnessChains).replies,
      (r.isEphemeral = true →
        r.anchor = privateSummarizeEvent.thread_ts.getD "200".toList) ∧
      (r.isEphemeral = false → r.anchor = "200".toList) :=
  ⟨rfl, rfl, reply_anchoring privateSummarizeBody witnessClient witnessChains
    privateSummarizeEvent "200".toList rfl rfl⟩

/-- C7: whenever the thread fetch reports failure (an ok-false response or
a raised exception), the summarize path sends the enumerated fetch error
message through the requested visibility channel (the ephemeral call when
the privacy flag is set, the public threaded say otherwise) and the
handler does not throw. -/
theorem fetch_failure_error_reply (body : Body) (client : SlackClient) (ch : Chains)
    (e : EventDict) (text user channel event_ts : List Char)
    (he : body.event = some e) (htext : e.text = some text) (huser : e.user = some user)
    (hchan : e.channel = some channel) (hts : e.ts = some event_ts)
    (hintent : classify (toLowerL (clean_message_text text)) = Intent.SummarizeThread)
    (hfetch : client.conversations_replies channel (e.thread_ts.getD event_ts) =
        FetchOutcome.notOk ∨
      client.conversations_replies channel (e.thread_ts.getD event_ts) =
        FetchOutcome.raised) :
    (handle_mention body client ch).escaped = false ∧
    (isPrivateRequest (toLowerL (clean_message_text text)) = true →
      Reply.ephemeral channel user fetchErrorText (e.thread_ts.getD event_ts) ∈
        (handle_mention body client ch).replies) ∧
    (isPrivateRequest (toLowerL (clean_message_text text)) = false →
      (handle_mention body client ch).replies = [Reply.say fetchErrorText event_ts]) := by
  have hnone : get_thread_messages client channel (e.thread_ts.getD event_ts) = none := by
    unfold get_thread_messages
    rcases hfetch with h | h <;> rw [h]
  have htry : handle_mention_try e client ch =
      Except.ok (deliverRequested client channel user fetchErrorText
        (isPrivateRequest (toLowerL (clean_message_text text)))
        (e.thread_ts.getD event_ts) event_ts) := by
    unfold handle_mention_try
    simp [htext, huser, hchan, hts, hintent, hnone, truthyStr]
  unfold handle_mention
  simp only [he, htry]
  refine ⟨trivial, ?_, ?_⟩
  · intro hpriv
    unfold deliverRequested
    cases hfail : client.postEphemeralFails <;> simp [hpriv, hfail]
  · intro hpriv
    unfold deliverRequested
    simp [hpriv]

/-- C7 witness: a concrete failed fetch on a public summarize request
yields exactly the public enumerated error reply and no escape. -/
theorem fetch_failure_error_reply_witness :
    fetchFailClient.conversations_replies "C1".toList
        (summarizeEvent.thread_ts.getD "200".toList) = FetchOutcome.notOk ∧
    classify (toLowerL (clean_message_text "summarize thread".toList)) =
      Intent.SummarizeThread ∧
    (handle_mention summarizeBody fetchFailClient witnessChains).escaped = false ∧
    (isPrivateRequest (toLowerL (clean_message_text "summarize thread".toList)) = false →
      (handle_mention summarizeBody fetchFailClient witnessChains).replies =
        [Reply.say fetchErrorText "200".toList]) :=
  ⟨rfl, by decide,
   (fetch_failure_error_reply summarizeBody fetchFailClient witnessChains summarizeEvent
      "summarize thread".toList "U1".toList "C1".toList "200".toList rfl rfl rfl rfl rfl
      (by decide) (Or.inl rfl)).1,
   (fetch_failure_error_reply summarizeBody fetchFailClient witnessChains summarizeEvent
      "summarize thread".toList "U1".toList "C1".toList "200".toList rfl rfl rfl rfl rfl
      (by decide) (Or.inl rfl)).2.2⟩

/-- C8: on the chat path, an empty model response makes the router reply
with the literal fallback text instead of staying silent. -/
theorem chat_empty_fallback (body : Body) (client : SlackClient) (ch : Chains)
    (e : EventDict) (text user channel event_ts : List Char)
    (he : body.event = some e) (htext : e.text = some text) (huser : e.user = some user)
    (hchan : e.channel = some channel) (hts : e.ts = some event_ts)
    (hintent : classify (toLowerL (clean_message_text text)) = Intent.Chat)
    (hresp : ch.chat_chain (toLowerL (clean_message_text text)) = []) :
    (handle_mention body client ch).replies = [Reply.say chatFallbackText event_ts] ∧
    (handle_mention body client ch).escaped = false := by
  have htry : handle_mention_try e client ch =
      Except.ok [Reply.say chatFallbackText event_ts] := by
    unfold handle_mention_try
    simp [htext, huser, hchan, hts, hintent, hresp]
  unfold handle_mention
  simp only [he, htry]
  exact ⟨trivial, trivial⟩

/-- C8 witness: the concrete chat request with empty model output gets the
literal fallback reply. -/
theorem chat_empty_fallback_witness :
    classify (toLowerL (clean_message_text "what is rust".toList)) = Intent.Chat ∧
    emptyChatChains.chat_chain (toLowerL (clean_message_text "what is rust".toList)) = [] ∧
    (handle_mention chatBody witnessClient emptyChatChains).replies =
      [Reply.say chatFallbackText "200".toList] ∧
    (handle_mention chatBody witnessClient emptyChatChains).escaped = false :=
  ⟨by decide, rfl,
   chat_empty_fallback chatBody witnessClient emptyChatChains chatEvent
     "what is rust".toList "U1".toList "C1".toList "200".toList rfl rfl rfl rfl rfl
     (by decide) rfl⟩

/-- C9: evaluation of the handler at a body whose event dict lacks the ts
key.  The KeyError raised at line 161 reaches the except clause of line
245, whose say call itself reads body event ts (line 248) and raises a
fresh KeyError, which escapes handle_mention: the handler does not catch
all per-request errors, contradicting the claim and spec section 7. -/
theorem handle_mention_escapes_without_ts :
    handle_mention noTsBody witnessClient witnessChains =
      { replies := [], escaped := true } := rfl

/-- C10: a fetch that reports ok with an empty message list produces an
empty (falsy) transcript, and the handler treats it exactly like a fetch
failure: the outcome is identical to the ok-false client's, it does not
depend on the model chains at all (so the summarization model's output
never reaches the user), and on the public path the reply is the
enumerated fetch error message, not a summary. -/
theorem empty_thread_like_fetch_failure (ui : List Char → LookupOutcome) (pf : Bool)
    (body : Body) (ch : Chains) (e : EventDict) (text user channel event_ts : List Char)
    (he : body.event = some e) (htext : e.text = some text) (huser : e.user = some user)
    (hchan : e.channel = some channel) (hts : e.ts = some event_ts)
    (hintent : classify (toLowerL (clean_message_text text)) = Intent.SummarizeThread) :
    handle_mention body
        { users_info := ui, conversations_replies := fun _ _ => FetchOutcome.ok [],
          postEphemeralFails := pf } ch =
      handle_mention body
        { users_info := ui, conversations_replies := fun _ _ => FetchOutcome.notOk,
          postEphemeralFails := pf } ch ∧
    (∀ ch' : Chains,
      handle_mention body
          { users_info := ui, conversations_replies := fun _ _ => FetchOutcome.ok [],
            postEphemeralFails := pf } ch =
        handle_mention body
          { users_info := ui, conversations_replies := fun _ _ => FetchOutcome.ok [],
            postEphemeralFails := pf } ch') ∧
    (isPrivateRequest (toLowerL (clean_message_text text)) = false →
      (handle_mention body
          { users_info := ui, conversations_replies := fun _ _ => FetchOutcome.ok [],
            postEphemeralFails := pf } ch).replies =
        [Reply.say fetchErrorText event_ts]) := by
  have htryE : ∀ ch'' : Chains, handle_mention_try e
      { users_info := ui, conversations_replies := fun _ _ => FetchOutcome.ok [],
        postEphemeralFails := pf } ch'' =
      Except.ok (deliverRequested
        { users_info := ui, conversations_replies := fun _ _ => FetchOutcome.ok [],
          postEphemeralFails := pf } channel user fetchErrorText
        (isPrivateRequest (toLowerL (clean_message_text text)))
        (e.thread_ts.getD event_ts) event_ts) := by
    intro ch''
    unfold handle_mention_try
    simp [htext, huser, hchan, hts, hintent, get_thread_messages, truthyStr,
      transcriptLines, joinSep]
  have htryN : handle_mention_try e
      { users_info := ui, conversations_replies := fun _ _ => FetchOutcome.notOk,
        postEphemeralFails := pf } ch =
      Except.ok (deliverRequested
        { users_info := ui, conversations_replies := fun _ _ => FetchOutcome.notOk,
          postEphemeralFails := pf } channel user fetchErrorText
        (isPrivateRequest (toLowerL (clean_message_text text)))
        (e.thread_ts.getD event_ts) event_ts) := by
    unfold handle_mention_try
    simp [htext, huser, hchan, hts, hintent, get_thread_messages, truthyStr]
  refine ⟨?_, ?_, ?_⟩
  · unfold handle_mention
    simp only [he, htryE ch, htryN]
    rfl
  · intro ch'
    unfold handle_mention
    simp only [he, htryE ch, htryE ch']
  · intro hpriv
    unfold handle_mention
    simp only [he, htryE ch]
    unfold deliverRequested
    simp [hpriv]

/-- C10 witness: the concrete public summarize request over the
empty-thread client behaves exactly like the ok-false client and produces
the enumerated error reply. -/
theorem empty_thread_like_fetch_failure_witness :
    classify (toLowerL (clean_message_text "summarize thread".toList)) =
      Intent.SummarizeThread ∧
    (handle_mention summarizeBody emptyThreadClient witnessChains =
      handle_mention summarizeBody fetchFailClient witnessChains ∧
    (∀ ch' : Chains,
      handle_mention summarizeBody emptyThreadClient witnessChains =
        handle_mention summarizeBody emptyThreadClient ch') ∧
    (isPrivateRequest (toLowerL (clean_message_text "summarize thread".toList)) = false →
      (handle_mention summarizeBody emptyThreadClient witnessChains).replies =
        [Reply.say fetchErrorText "200".toList])) :=
  ⟨by decide,
   empty_thread_like_fetch_failure witness_users_info false summarizeBody witnessChains
     summarizeEvent "summarize thread".toList "U1".toList "C1".toList "200".toList
     rfl rfl rfl rfl rfl (by decide)⟩

end SlackOllama
